import Mathlib

/-!
Shallow embedding of the tobaro-app candidate-matching engine
(`src/matcher.py`) and its result cache (`src/cache.py`).

Modelling conventions:
* Python floats are modelled as `ℚ` (the code only adds, multiplies,
  divides by constants, and compares).
* Python `None` is modelled as `Option`.
* `round` is Python's builtin round-half-to-even (`pyRound`); `int(...)`
  truncates toward zero (`pyInt`).
* External collaborators that perform I/O (the haversine great-circle
  helper, which uses transcendental functions, the Kakao road-distance
  lookup, and the Kakao geocoder) are oracle parameters: the engine is
  proved correct for every choice of oracle.
* Python dicts are association lists keyed by `String`; dict update keeps
  the original insertion position of an existing key.
-/

namespace Tobaro

/-- Python's builtin `round` on an exact rational: round half to even. -/
def pyRound (q : ℚ) : ℤ :=
  let f : ℤ := ⌊q⌋
  let r : ℚ := q - (f : ℚ)
  if r < 1/2 then f
  else if 1/2 < r then f + 1
  else if f % 2 = 0 then f else f + 1

/-- Python's `round(x, n)`: round to `n` decimal digits (half to even). -/
def roundTo (n : ℕ) (q : ℚ) : ℚ :=
  ((pyRound (q * (10 : ℚ) ^ n) : ℚ)) / (10 : ℚ) ^ n

/-- Python's `int(x)` on a float: truncation toward zero. -/
def pyInt (q : ℚ) : ℤ :=
  if q < 0 then ⌈q⌉ else ⌊q⌋

/-- Python's `a or b` on an optional string (`None` and `""` are falsy). -/
def pyOrOpt (a b : Option String) : Option String :=
  match a with
  | some s => if s = "" then b else a
  | none => b

/-- Python's `a or d` for an optional string with a string default. -/
def pyOrStr (a : Option String) (d : String) : String :=
  match a with
  | some s => if s = "" then d else s
  | none => d

/-- A candidate record: one row of the `candidates_df` dataframe handed to
`rank_candidates` (columns produced by `store.load_candidates`). -/
structure Row where
  name : Option String
  type : Option String
  inout_type : Option String
  inout_status : Option String
  lat : ℚ
  lon : ℚ
  volume_m3 : Option ℚ
  soil_type : Option String
  usage : Option String
  address : Option String
  progress_ratio_today : Option ℚ
  current_volume_today : Option ℚ
deriving DecidableEq, Repr

/-- The demand-side `entities` dict passed to `rank_candidates`
(`entities.get(k)` is `none` when the key is missing). -/
structure Entities where
  region : Option String
  volume_m3 : Option ℚ
  soil_type : Option String
  purpose : Option String
  urgency : Option String
  usage : Option String
deriving DecidableEq, Repr

/-- One row of the ranked result dataframe built in `rank_candidates`. -/
structure OutRow where
  name : Option String
  distance_km : ℚ
  capacity_m3 : ℤ
  current_capacity_m3 : ℤ
  soil_type : String
  type : String
  usage : String
  address : String
  progress_ratio : ℚ
  transport_cost : ℤ
  score : ℚ
  lat : ℚ
  lng : ℚ
deriving DecidableEq, Repr

/-- `matcher.calculate_transport_cost(distance_km, volume_m3)`: `0` when
either argument is `None`, otherwise
`round(distance * (volume * 1.5) * 123)` (density 1.5 t/m³, 123 won per
ton-km default). -/
def calculate_transport_cost (distance_km volume_m3 : Option ℚ) : ℤ :=
  match volume_m3, distance_km with
  | some v, some d =>
      let soil_density : ℚ := 1.5
      let total_weight := v * soil_density
      pyRound (d * total_weight * 123)
  | _, _ => 0

/-- `matcher.volume_fit_score(supply, demand)`. -/
def volume_fit_score (supply demand : Option ℚ) : ℚ :=
  match supply, demand with
  | some s, some d =>
      if max s d = 0 then 0
      else if s ≥ d then 1 else 0
  | _, _ => 0

/-- `store.get_soil_type_mapping()`: legacy soil label → current label. -/
def soil_type_mapping : List (String × String) :=
  [("점토", "순성토"), ("사질", "사토"), ("자갈", "리핑암"), ("혼합", "사토"),
   ("황토", "순성토"), ("모래", "사토"), ("암석", "발파암")]

/-- `soil_mapping.get(s, s)` in `soil_match_score`. -/
def mapSoil (s : String) : String :=
  (soil_type_mapping.lookup s).getD s

/-- The `usage_preferences` table literal in `matcher.soil_match_score`. -/
def usage_preferences : List (String × List (String × ℚ)) :=
  [("매립용", [("사토", 0.9), ("순성토", 0.95), ("리핑암", 0.4), ("발파암", 0.3), ("풍화암", 0.6)]),
   ("되메우기용", [("사토", 0.95), ("순성토", 0.9), ("리핑암", 0.7), ("발파암", 0.6), ("풍화암", 0.8)]),
   ("조경식재용", [("사토", 0.6), ("순성토", 0.9), ("리핑암", 0.5), ("발파암", 0.4), ("풍화암", 0.85)]),
   ("구조물되메우기용", [("사토", 0.9), ("순성토", 0.7), ("리핑암", 0.95), ("발파암", 0.9), ("풍화암", 0.6)]),
   ("도로성토용", [("사토", 0.95), ("순성토", 0.6), ("리핑암", 0.9), ("발파암", 0.95), ("풍화암", 0.7)]),
   ("기타유용", [("사토", 0.8), ("순성토", 0.8), ("리핑암", 0.7), ("발파암", 0.6), ("풍화암", 0.7)])]

/-- The symmetric `soil_similarity` table literal in `soil_match_score`. -/
def soil_similarity : List ((String × String) × ℚ) :=
  [(("사토", "순성토"), 0.7), (("순성토", "사토"), 0.7),
   (("사토", "리핑암"), 0.5), (("리핑암", "사토"), 0.5),
   (("사토", "발파암"), 0.4), (("발파암", "사토"), 0.4),
   (("사토", "풍화암"), 0.6), (("풍화암", "사토"), 0.6),
   (("순성토", "리핑암"), 0.3), (("리핑암", "순성토"), 0.3),
   (("순성토", "발파암"), 0.2), (("발파암", "순성토"), 0.2),
   (("순성토", "풍화암"), 0.8), (("풍화암", "순성토"), 0.8),
   (("리핑암", "발파암"), 0.9), (("발파암", "리핑암"), 0.9),
   (("리핑암", "풍화암"), 0.6), (("풍화암", "리핑암"), 0.6),
   (("발파암", "풍화암"), 0.5), (("풍화암", "발파암"), 0.5)]

/-- `matcher.soil_match_score(supply_soil, demand_soil, purpose, usage)`.
`not x` in Python is true for `None` and for `""`. -/
def soil_match_score (supply_soil demand_soil purpose usage : Option String) : ℚ :=
  match supply_soil, demand_soil with
  | some ss, some ds =>
      if ss = "" ∨ ds = "" then 1/2
      else
        let ss := mapSoil ss
        let ds := mapSoil ds
        if ss = ds then 1
        else
          let base_score := (soil_similarity.lookup (ss, ds)).getD 0
          match pyOrOpt usage purpose with
          | some tu =>
              if tu ≠ "" then
                match usage_preferences.lookup tu with
                | some prefs => base_score * 0.6 + ((prefs.lookup ss).getD 0.5) * 0.4
                | none => base_score
              else base_score
          | none => base_score
  | _, _ => 1/2

/-- The urgency-dependent weight tuple set up in `score_candidate`. -/
structure Weights where
  dist : ℚ
  vol : ℚ
  soil : ℚ
  acc : ℚ
deriving DecidableEq, Repr

/-- `base_weights`, overridden for the "긴급" and "여유" urgency tiers. -/
def weightsFor (urgency : Option String) : Weights :=
  if urgency = some "긴급" then ⟨0.3, 0.4, 0.2, 0.1⟩
  else if urgency = some "여유" then ⟨0.6, 0.2, 0.15, 0.05⟩
  else ⟨0.5, 0.3, 0.15, 0.05⟩

/-- The distance term of `score_candidate`:
`1.0 - min(distance_km / 200, 1.0)` when a distance is known, `0.5`
otherwise. -/
def dist_term (distance_km : Option ℚ) : ℚ :=
  match distance_km with
  | some d => 1 - min (d / 200) 1
  | none => 1/2

/-- `matcher.score_candidate(...)`. The `progress_ratio` argument is
accepted and ignored, exactly like the source. -/
def score_candidate (distance_km : Option ℚ) (supply_volume demand_volume : ℚ)
    (supply_soil demand_soil : Option String)
    (access_ok : Bool) (deadline_penalty : Bool)
    (purpose urgency usage : Option String) (_progress_ratio : Option ℚ) : ℚ :=
  if supply_volume < demand_volume then 0
  else
    let w := weightsFor urgency
    let dt := dist_term distance_km
    let vol_term := volume_fit_score (some supply_volume) (some demand_volume)
    let soil_term := soil_match_score supply_soil demand_soil purpose usage
    let acc_term : ℚ := if access_ok then 1 else 0
    let base := 100 * (w.dist * dt + w.vol * vol_term + w.soil * soil_term + w.acc * acc_term)
    let urgency_bonus : ℚ :=
      if urgency = some "긴급" then 5 else if urgency = some "급함" then 3 else 0
    let progress_bonus : ℚ := 0
    let penalty : ℚ := if deadline_penalty then 10 else 0
    max 0 (base + urgency_bonus + progress_bonus - penalty)

/-- `matcher.get_default_volume_by_purpose(purpose)`: fixed table with
fallback 200 (construction). -/
def get_default_volume_by_purpose (purpose : String) : ℤ :=
  let purpose_defaults : List (String × ℤ) :=
    [("농업", 30), ("조경", 20), ("복구", 100), ("건설", 200),
     ("매립", 200), ("되메우기", 100), ("기초공사", 200), ("도로공사", 200),
     ("하천정비", 100), ("산사태복구", 100)]
  (purpose_defaults.lookup purpose).getD 200

/-- `demand_volume` resolution at the top of `rank_candidates`: a missing
volume is defaulted from the purpose (when the purpose is truthy) or to
200, and each substitution is recorded as a human-readable note in
`applied_defaults`. Returns `(demand_volume, applied_defaults)`. -/
def resolveVolume (e : Entities) : ℚ × List String :=
  match e.volume_m3 with
  | some v => (v, [])
  | none =>
    match e.purpose with
    | some p =>
        if p ≠ "" then
          let d := get_default_volume_by_purpose p
          ((d : ℚ), ["용량: " ++ toString d ++ "m³ (" ++ p ++ "용 기본값 적용)"])
        else ((200 : ℚ), ["용량: 200m³ (기본값 적용)"])
    | none => ((200 : ℚ), ["용량: 200m³ (기본값 적용)"])

/-- `row.get("current_volume_today", 0) or 0` (both the missing-key default
and Python falsiness collapse to `0`). -/
def currentVolume (row : Row) : ℚ :=
  (row.current_volume_today).getD 0

/-- Stage A of `rank_candidates`: keep only `supply` rows within 200 km
straight-line distance whose current volume covers the demand volume.
`hav` is the great-circle distance oracle (`haversine_km`). -/
def stage_a (hav : ℚ → ℚ → ℚ → ℚ → ℚ) (refLat refLon dv : ℚ)
    (cands : List Row) : List Row :=
  cands.filter (fun row =>
    row.inout_type == some "supply"
      && decide (hav refLat refLon row.lat row.lon ≤ 200)
      && decide (dv ≤ currentVolume row))

/-- The Stage-A survivors sorted by straight-line distance ascending and
truncated to the nearest 10; only these reach the real-distance lookup. -/
def stage_b_input (hav : ℚ → ℚ → ℚ → ℚ → ℚ) (refLat refLon dv : ℚ)
    (cands : List Row) : List Row :=
  (List.insertionSort
    (fun r s => hav refLat refLon r.lat r.lon ≤ hav refLat refLon s.lat s.lon)
    (stage_a hav refLat refLon dv cands)).take 10

/-- The result-row dict built for one Stage-B survivor (`rows.append` in
`rank_candidates`), given its already-computed real road distance. -/
def stage_b_row (real_dist : ℚ) (dv : ℚ) (e : Entities) (row : Row) : OutRow :=
  let cv := currentVolume row
  { name := row.name
    distance_km := roundTo 1 real_dist
    capacity_m3 := pyInt ((row.volume_m3).getD 0)
    current_capacity_m3 := pyInt cv
    soil_type := pyOrStr row.soil_type "불명"
    type := pyOrStr row.type "불명"
    usage := pyOrStr row.usage "불명"
    address := (row.address).getD ""
    progress_ratio := roundTo 3 ((row.progress_ratio_today).getD 0)
    transport_cost := calculate_transport_cost (some real_dist) (some dv)
    score := roundTo 1 (score_candidate (some real_dist) cv dv
      row.soil_type e.soil_type true false e.purpose e.urgency
      (pyOrOpt e.usage row.usage) row.progress_ratio_today)
    lat := row.lat
    lng := row.lon }

/-- Stage B of `rank_candidates`: look up the real road distance for each
of the ≤10 Stage-B inputs (`rd` is the `get_real_distance` oracle), drop
rows beyond 500 km, and build the scored result rows. -/
def stage_b_rows (hav rd : ℚ → ℚ → ℚ → ℚ → ℚ) (refLat refLon dv : ℚ)
    (e : Entities) (cands : List Row) : List OutRow :=
  (stage_b_input hav refLat refLon dv cands).filterMap (fun row =>
    if 500 < rd refLat refLon row.lat row.lon then none
    else some (stage_b_row (rd refLat refLon row.lat row.lon) dv e row))

/-- The `else` branch of the dedup loop: find the first kept row with the
same supplier name and replace it when the new row scores strictly
higher. -/
def replaceIfBetter (r : OutRow) : List OutRow → List OutRow
  | [] => []
  | a :: rest =>
      if a.name == r.name then
        (if a.score < r.score then r :: rest else a :: rest)
      else a :: replaceIfBetter r rest

/-- The dedup loop of `rank_candidates` over the scored rows; `acc` is the
`filtered_rows` accumulator (the `seen_suppliers` set is exactly the set
of names in `acc`). -/
def dedupAux : List OutRow → List OutRow → List OutRow
  | acc, [] => acc
  | acc, r :: rest =>
      if acc.any (fun a => a.name == r.name) then
        dedupAux (replaceIfBetter r acc) rest
      else dedupAux (acc ++ [r]) rest

/-- Same-supplier deduplication: keep the highest-scoring row per name. -/
def dedupRows (rows : List OutRow) : List OutRow :=
  dedupAux [] rows

/-- `pd.DataFrame(filtered_rows).sort_values("score", ascending=False).head(3)`.
When `filtered_rows` is empty the constructed dataframe has no columns at
all, so `sort_values("score")` raises `KeyError: 'score'`; otherwise the
rows are sorted by score descending and the top 3 are kept. -/
def sortSelect (rows : List OutRow) : Except String (List OutRow) :=
  if rows.isEmpty then Except.error "KeyError: score"
  else Except.ok
    ((List.insertionSort (fun a b : OutRow => b.score ≤ a.score) rows).take 3)

/-- The rationale-summary block at the end of `rank_candidates`. -/
def mkSummary (e : Entities) (dv : ℚ) (ad : List String) : List String :=
  let prefs : List String :=
    ["용량 " ++ toString dv ++ "m³ 이상 공급처 우선",
     "직선거리 상위 10개 → 실제 도로거리 3순위 매칭"]
  let prefs := prefs ++
    (if e.urgency = some "긴급" then ["긴급 요청: 용량/토질 적합도 최우선"]
     else if e.urgency = some "급함" then ["급한 요청: 용량/토질 적합도 중시"]
     else if e.urgency = some "여유" then ["여유 요청: 거리 최우선 매칭"]
     else ["실제 도로거리 우선/용량/토질 종합 점수 순"])
  let usage_names : List (String × String) :=
    [("매립용", "매립용"), ("되메우기용", "되메우기용"), ("조경식재용", "조경용"),
     ("구조물되메우기용", "구조물용"), ("도로성토용", "도로용"), ("기타유용", "기타용도")]
  let prefs := prefs ++
    (match pyOrOpt e.usage e.purpose with
     | some tu =>
         if tu ≠ "" then [(usage_names.lookup tu).getD tu ++ " 토질 선호도 반영"]
         else match e.soil_type with
              | some ds => if ds ≠ "" then ["토질 \x27" ++ ds ++ "\x27 선호 반영"] else []
              | none => []
     | none =>
         match e.soil_type with
         | some ds => if ds ≠ "" then ["토질 \x27" ++ ds ++ "\x27 선호 반영"] else []
         | none => [])
  let summary := prefs.take 3
  if ad.isEmpty then summary
  else ("[기본값 적용] " ++ String.intercalate ", " ad) :: summary

/-- `matcher.rank_candidates(entities, candidates_df)`.

`geocode` is the `geocode_user_address` oracle (it raises — `.error` —
on empty or too-broad region labels and its exceptions propagate out of
`rank_candidates`); `hav` and `rd` are the straight-line and real-road
distance oracles. Returns `(ranked rows, summary, applied_defaults)`. -/
def rank_candidates (hav rd : ℚ → ℚ → ℚ → ℚ → ℚ)
    (geocode : String → Except String (ℚ × ℚ))
    (e : Entities) (cands : List Row) :
    Except String (List OutRow × List String × List String) :=
  match geocode ((e.region).getD "") with
  | Except.error m => Except.error m
  | Except.ok (refLat, refLon) =>
    let dv := (resolveVolume e).1
    let ad := (resolveVolume e).2
    match sortSelect (dedupRows (stage_b_rows hav rd refLat refLon dv e cands)) with
    | Except.error m => Except.error m
    | Except.ok out => Except.ok (out, mkSummary e dv ad, ad)

/-! ### Sample concrete inputs (used by witnesses) -/

/-- A sample supply row with ample volume, colocated with the reference
point. -/
def sampleRow : Row :=
  { name := some "공급지A", type := some "토사", inout_type := some "supply",
    inout_status := some "미반출", lat := 0, lon := 0,
    volume_m3 := some 1000, soil_type := some "사토", usage := some "매립용",
    address := some "주소", progress_ratio_today := some 1,
    current_volume_today := some 1000 }

/-- A sample demand request asking for 10 m³. -/
def sampleEntities : Entities :=
  { region := some "경기도 수원시", volume_m3 := some 10, soil_type := some "사토",
    purpose := none, urgency := none, usage := none }

/-- A constant-zero distance oracle. -/
def zeroDist : ℚ → ℚ → ℚ → ℚ → ℚ := fun _ _ _ _ => 0

/-- A geocoding oracle that resolves every label to the origin. -/
def okGeocode : String → Except String (ℚ × ℚ) := fun _ => Except.ok (0, 0)

/-- The demand request used in the C8 witness: no volume, purpose
agriculture. -/
def agriEntities : Entities :=
  { region := some "경상북도 예천군", volume_m3 := none, soil_type := none,
    purpose := some "농업", urgency := none, usage := none }

/-- A second sample row sharing `sampleRow`'s supplier name but placed at
latitude 2, so the road-distance oracle `dupRd` gives it 100 km and a
lower score. -/
def dupRowB : Row := { sampleRow with lat := 2 }

/-- A road-distance oracle returning 50 km per degree of latitude. -/
def dupRd : ℚ → ℚ → ℚ → ℚ → ℚ := fun _ _ plat _ => plat * 50

/-! ### The result cache (`src/cache.py`) -/

/-- One stored cache item: `{'value': ..., 'timestamp': ...}`. -/
structure CacheEntry (α : Type) where
  value : α
  timestamp : ℚ
deriving DecidableEq, Repr

/-- The configuration a `SimpleCache` instance reads at construction:
`config.CACHE_SIZE`, `config.CACHE_DURATION`, `config.USE_CACHE`
(`100`, `3600`, `True` in the shipped configuration). -/
structure CacheConfig where
  maxSize : ℕ
  duration : ℚ
  useCache : Bool
deriving DecidableEq, Repr

/-- The shipped configuration values. -/
def defaultCacheConfig : CacheConfig := ⟨100, 3600, true⟩

/-- `SimpleCache.cache`: an insertion-ordered dict from key to entry. -/
abbrev CacheStore (α : Type) := List (String × CacheEntry α)

/-- `SimpleCache._is_expired(timestamp)` at time `now`. -/
def is_expired (cfg : CacheConfig) (now ts : ℚ) : Bool :=
  decide (now - ts > cfg.duration)

/-- `SimpleCache._cleanup_expired()`: delete every expired entry. -/
def cleanup_expired (cfg : CacheConfig) (now : ℚ) (c : CacheStore α) : CacheStore α :=
  c.filter (fun kv => !(decide (now - kv.2.timestamp > cfg.duration)))

/-- `SimpleCache._cleanup_oldest()`: when the entry count is at or above
the maximum, delete the oldest `max(1, count // 5)` entries (by creation
timestamp; Python's `sorted` is stable). -/
def cleanup_oldest (cfg : CacheConfig) (c : CacheStore α) : CacheStore α :=
  if cfg.maxSize ≤ c.length then
    let sorted := List.insertionSort
      (fun a b : String × CacheEntry α => a.2.timestamp ≤ b.2.timestamp) c
    let removeCount := max 1 (c.length / 5)
    let removeKeys := (sorted.take removeCount).map Prod.fst
    c.filter (fun kv => !(removeKeys.contains kv.1))
  else c

/-- Python dict assignment `self.cache[key] = v`: replace in place when the
key exists (dicts keep the original insertion position), append
otherwise. -/
def dictSet (k : String) (v : CacheEntry α) : CacheStore α → CacheStore α
  | [] => [(k, v)]
  | (k', v') :: rest => if k' = k then (k, v) :: rest else (k', v') :: dictSet k v rest

/-- `SimpleCache.set(key, value)` at time `now`: no-op when caching is
disabled, else TTL sweep, capacity sweep, then insert. -/
def cache_set (cfg : CacheConfig) (now : ℚ) (key : String) (value : α)
    (c : CacheStore α) : CacheStore α :=
  if cfg.useCache then
    dictSet key ⟨value, now⟩ (cleanup_oldest cfg (cleanup_expired cfg now c))
  else c

/-- `SimpleCache.get(key)` at time `now`: returns the fresh value, lazily
dropping a single expired entry found at lookup time. Returns the value
(or `none`) together with the possibly-mutated store. -/
def cache_get (cfg : CacheConfig) (now : ℚ) (key : String)
    (c : CacheStore α) : Option α × CacheStore α :=
  if cfg.useCache then
    match c.lookup key with
    | some entry =>
        if is_expired cfg now entry.timestamp then
          (none, c.filter (fun kv => !(kv.1 == key)))
        else (some entry.value, c)
    | none => (none, c)
  else (none, c)

/-- `SimpleCache.clear()`. -/
def cache_clear (_c : CacheStore α) : CacheStore α := []

/-- One client operation against the shared cache instance. -/
inductive CacheOp (α : Type) where
  | get (now : ℚ) (key : String)
  | set (now : ℚ) (key : String) (value : α)
  | clear
deriving Repr

/-- State transition of one cache operation. -/
def applyOp (cfg : CacheConfig) : CacheStore α → CacheOp α → CacheStore α
  | c, CacheOp.get now k => (cache_get cfg now k c).2
  | c, CacheOp.set now k v => cache_set cfg now k v c
  | c, CacheOp.clear => cache_clear c

/-- Run a sequence of operations against an initially empty cache. -/
def runOps (cfg : CacheConfig) (ops : List (CacheOp α)) : CacheStore α :=
  ops.foldl (applyOp cfg) []

/-! ### Cache key derivation (`src/cache.py`, `_generate_key` and the
matching-result wrappers) -/

/-- A JSON-serializable Python value appearing in the (flat) demand
`entities` dict produced by `model_dump()`. -/
inductive PVal where
  | none
  | str (s : String)
  | int (n : ℤ)
deriving DecidableEq, Repr

/-- JSON rendering of one primitive value (string escaping is irrelevant
to every property proved here and is omitted). -/
def renderPVal : PVal → String
  | PVal.none => "null"
  | PVal.str s => "\"" ++ s ++ "\""
  | PVal.int n => toString n

/-- A Python dict with string keys, in insertion order. -/
abbrev PyDict := List (String × PVal)

/-- `json.dumps(d, sort_keys=True)` for a flat dict: keys sorted, default
separators `", "` and `": "`. -/
def dumpsDict (d : PyDict) : String :=
  "\x7b" ++ String.intercalate ", "
    ((List.insertionSort (fun a b : String × PVal => a.1 ≤ b.1) d).map
      (fun kv => "\"" ++ kv.1 ++ "\": " ++ renderPVal kv.2)) ++ "\x7d"

/-- One display line of a candidate row inside `str(candidates_df)`. -/
def renderRowLine (r : Row) : String :=
  String.intercalate " "
    [(r.name).getD "NaN", (r.type).getD "NaN", (r.inout_type).getD "NaN",
     toString r.lat, toString r.lon,
     (r.soil_type).getD "NaN", (r.usage).getD "NaN", (r.address).getD "NaN"]

/-- The row block of `str(candidates_df)`. -/
def renderRowsBlock (rows : List Row) : String :=
  String.intercalate "\n" (rows.map renderRowLine)

/-- Model of pandas `str(DataFrame)` under the default display options
(`display.max_rows = 60`, `display.min_rows = 10`): a frame with more than
60 rows is abbreviated to its first 5 and last 5 rows around an ellipsis
line, so rows in the elided middle do not appear in the rendering at all.
The exact cell layout of the real renderer is simplified; what matters —
and what pandas guarantees with these defaults — is that the rendering is
a function of the shown head, the shown tail, and the row count only. -/
def dfStr (rows : List Row) : String :=
  if rows.length ≤ 60 then
    renderRowsBlock rows ++ "\n[" ++ toString rows.length ++ " rows]"
  else
    renderRowsBlock (rows.take 5) ++ "\n...\n" ++
      renderRowsBlock (rows.drop (rows.length - 5)) ++
      "\n[" ++ toString rows.length ++ " rows]"

/-- `json.dumps({'entities': e, 'candidates_hash': h}, sort_keys=True)`:
with sorted keys, `"candidates_hash"` precedes `"entities"`. -/
def matchKeyPayload (candidatesHash : ℤ) (entities : PyDict) : String :=
  "\x7b" ++ "\"candidates_hash\": " ++ toString candidatesHash ++
    ", \"entities\": " ++ dumpsDict entities ++ "\x7d"

/-- The cache key built by `cache_matching_result` /
`get_cached_matching_result`:
`f"match:{cache._generate_key({'entities': entities, 'candidates_hash': hash(str(candidates))})}"`.
`md5` is the hex digest of `_generate_key` and `pyHash` is Python's
builtin string `hash`; both are oracle parameters, so every property is
proved for every choice of digest. -/
def match_cache_key (md5 : String → String) (pyHash : String → ℤ)
    (entities : PyDict) (cands : List Row) : String :=
  "match:" ++ md5 (matchKeyPayload (pyHash (dfStr cands)) entities)

/-- `cache.cache_matching_result(entities, candidates, result)`. -/
def cache_matching_result (md5 : String → String) (pyHash : String → ℤ)
    (cfg : CacheConfig) (now : ℚ) (entities : PyDict) (cands : List Row)
    (result : α) (c : CacheStore α) : CacheStore α :=
  cache_set cfg now (match_cache_key md5 pyHash entities cands) result c

/-- `cache.get_cached_matching_result(entities, candidates)`. -/
def get_cached_matching_result (md5 : String → String) (pyHash : String → ℤ)
    (cfg : CacheConfig) (now : ℚ) (entities : PyDict) (cands : List Row)
    (c : CacheStore α) : Option α × CacheStore α :=
  cache_get cfg now (match_cache_key md5 pyHash entities cands) c

/-- The matching-result keys of two candidate sets agree for EVERY digest
oracle (Python `hash`) and EVERY md5 implementation. -/
def match_keys_always_agree (entities : PyDict) (c1 c2 : List Row) : Prop :=
  ∀ (md5 : String → String) (pyHash : String → ℤ),
    match_cache_key md5 pyHash entities c1 = match_cache_key md5 pyHash entities c2

/-- A result cached for candidate set `c1` is returned by
`get_cached_matching_result` for candidate set `c2`, for every digest
oracle, immediately after caching (shipped configuration, time 0). -/
def cached_result_leaks (entities : PyDict) (c1 c2 : List Row) : Prop :=
  ∀ (md5 : String → String) (pyHash : String → ℤ),
    (get_cached_matching_result md5 pyHash defaultCacheConfig 0 entities c2
      (cache_matching_result md5 pyHash defaultCacheConfig 0 entities c1 (42 : ℕ) [])).1 =
      some 42

/-- A sample entities dict for the C2 counterexample. -/
def exEntities : PyDict :=
  [("region", PVal.str "경기도 수원시"), ("volume_m3", PVal.int 500),
   ("soil_type", PVal.str "사토"), ("purpose", PVal.none),
   ("urgency", PVal.none), ("usage", PVal.none)]

/-- A candidate row distinguishable from `sampleRow` (different name). -/
def otherRow : Row := { sampleRow with name := some "공급지B" }

/-- 61 identical rows: big enough that `str(candidates_df)` elides the
middle. -/
def exC1 : List Row := List.replicate 61 sampleRow

/-- Differs from `exC1` only at row index 30 — squarely inside the elided
middle of the 61-row rendering. -/
def exC2 : List Row :=
  List.replicate 30 sampleRow ++ otherRow :: List.replicate 30 sampleRow

/-- The identity stand-in for the md5 oracle (used only in witnesses). -/
def idMd5 : String → String := fun s => s

/-- A constant stand-in for Python's string hash (used only in
witnesses). -/
def zeroHash : String → ℤ := fun _ => 0

/-- Two-key entities dicts that are permutations of each other (for the
order-independence witness). -/
def exE1 : PyDict := [("b", PVal.int 2), ("a", PVal.str "x")]

/-- `exE1` with the keys in the other order. -/
def exE2 : PyDict := [("a", PVal.str "x"), ("b", PVal.int 2)]

/-! ### Helper lemmas -/

/-- Characterization of `rank_candidates` once geocoding has succeeded. -/
theorem rank_candidates_ok_eq (hav rd : ℚ → ℚ → ℚ → ℚ → ℚ)
    (geocode : String → Except String (ℚ × ℚ)) (e : Entities) (cands : List Row)
    (la lo : ℚ) (hgeo : geocode ((e.region).getD "") = Except.ok (la, lo)) :
    rank_candidates hav rd geocode e cands =
      match sortSelect (dedupRows (stage_b_rows hav rd la lo (resolveVolume e).1 e cands)) with
      | Except.error m => Except.error m
      | Except.ok out =>
          Except.ok (out, mkSummary e (resolveVolume e).1 (resolveVolume e).2, (resolveVolume e).2) := by
  unfold rank_candidates
  rw [hgeo]

/-- Inversion of a successful `rank_candidates` call: the output triple is
the sorted-and-truncated dedup result, the summary, and the applied
defaults. -/
theorem rank_candidates_ok_inv (hav rd : ℚ → ℚ → ℚ → ℚ → ℚ)
    (geocode : String → Except String (ℚ × ℚ)) (e : Entities) (cands : List Row)
    (out : List OutRow) (s ad : List String)
    (hok : rank_candidates hav rd geocode e cands = Except.ok (out, s, ad)) :
    ∃ la lo, geocode ((e.region).getD "") = Except.ok (la, lo) ∧
      ¬ (dedupRows (stage_b_rows hav rd la lo (resolveVolume e).1 e cands)).isEmpty ∧
      out = (List.insertionSort (fun a b : OutRow => b.score ≤ a.score)
        (dedupRows (stage_b_rows hav rd la lo (resolveVolume e).1 e cands))).take 3 ∧
      ad = (resolveVolume e).2 := by
  cases hgeo : geocode ((e.region).getD "") with
  | error m =>
    rw [rank_candidates, hgeo] at hok
    exact Except.noConfusion hok
  | ok p =>
    obtain ⟨la, lo⟩ := p
    rw [rank_candidates_ok_eq hav rd geocode e cands la lo hgeo] at hok
    refine ⟨la, lo, rfl, ?_⟩
    cases hsel : sortSelect (dedupRows (stage_b_rows hav rd la lo (resolveVolume e).1 e cands)) with
    | error m =>
      rw [hsel] at hok
      exact Except.noConfusion hok
    | ok out' =>
      rw [hsel] at hok
      have h2 : (Except.ok (out', mkSummary e (resolveVolume e).1 (resolveVolume e).2,
          (resolveVolume e).2) : Except String (List OutRow × List String × List String)) =
          Except.ok (out, s, ad) := hok
      have h3 := Except.ok.inj h2
      have ho : out' = out := congrArg Prod.fst h3
      have ha : (resolveVolume e).2 = ad := congrArg (fun t => t.2.2) h3
      unfold sortSelect at hsel
      by_cases hemp : (dedupRows (stage_b_rows hav rd la lo (resolveVolume e).1 e cands)).isEmpty
      · rw [if_pos hemp] at hsel
        exact Except.noConfusion hsel
      · rw [if_neg hemp] at hsel
        have h4 := Except.ok.inj hsel
        exact ⟨hemp, by rw [← ho, h4], ha.symm⟩

/-! ### Claim theorems -/

/-- **C3.** For every input to the scoring function, if
`supply_volume < demand_volume` then the returned score is exactly `0`,
regardless of distance, soil types, urgency, usage, the access flag and
every other argument. -/
theorem gate_score_zero (distance_km : Option ℚ) (supply_volume demand_volume : ℚ)
    (supply_soil demand_soil : Option String) (access_ok deadline_penalty : Bool)
    (purpose urgency usage : Option String) (pr : Option ℚ)
    (h : supply_volume < demand_volume) :
    score_candidate distance_km supply_volume demand_volume supply_soil demand_soil
      access_ok deadline_penalty purpose urgency usage pr = 0 := by
  unfold score_candidate
  rw [if_pos h]

/-- Witness for C3 at a concrete input: supply 5 < demand 10 scores 0 even
with perfect distance/soil/urgency. -/
theorem gate_score_zero_witness :
    score_candidate (some 0) 5 10 (some "사토") (some "사토") true false
      (some "건설") (some "긴급") (some "매립용") (some 1) = 0 :=
  gate_score_zero (some 0) 5 10 (some "사토") (some "사토") true false
    (some "건설") (some "긴급") (some "매립용") (some 1) (by norm_num)

/-- The distance weight is strictly positive for every urgency tier. -/
theorem weightsFor_dist_pos (urgency : Option String) : 0 < (weightsFor urgency).dist := by
  unfold weightsFor
  split
  · norm_num
  · split <;> norm_num

/-- **C4.** For two gate-passing inputs to `score_candidate` identical in
everything but the distance, the score is monotonically non-increasing in
the distance (`d1 ≤ d2` implies the score at `d1` is at least the score
at `d2`), and the distance term equals `1 - min(distance_km / 200, 1)`. -/
theorem score_antitone_distance (supply_volume demand_volume : ℚ)
    (supply_soil demand_soil : Option String) (access_ok deadline_penalty : Bool)
    (purpose urgency usage : Option String) (pr : Option ℚ)
    (hgate : demand_volume ≤ supply_volume) (d1 d2 : ℚ) (hd : d1 ≤ d2) :
    score_candidate (some d2) supply_volume demand_volume supply_soil demand_soil
        access_ok deadline_penalty purpose urgency usage pr ≤
      score_candidate (some d1) supply_volume demand_volume supply_soil demand_soil
        access_ok deadline_penalty purpose urgency usage pr ∧
    (∀ d : ℚ, dist_term (some d) = 1 - min (d / 200) 1) := by
  refine ⟨?_, fun d => rfl⟩
  have hng : ¬ supply_volume < demand_volume := not_lt.mpr hgate
  have hdt : dist_term (some d2) ≤ dist_term (some d1) := by
    simp only [dist_term]
    have h200 : d1 / 200 ≤ d2 / 200 := by linarith
    have := min_le_min h200 (le_refl (1 : ℚ))
    linarith
  have hw : 0 < (weightsFor urgency).dist := weightsFor_dist_pos urgency
  simp only [score_candidate, if_neg hng]
  apply max_le_max le_rfl
  have := mul_le_mul_of_nonneg_left hdt (le_of_lt hw)
  nlinarith

/-- Witness for C4 at a concrete input: distances 40 ≤ 180 with demand
500 ≤ supply 1000. -/
theorem score_antitone_distance_witness :
    score_candidate (some 180) 1000 500 (some "사토") (some "사토") true false
        none none none none ≤
      score_candidate (some 40) 1000 500 (some "사토") (some "사토") true false
        none none none none ∧
    (∀ d : ℚ, dist_term (some d) = 1 - min (d / 200) 1) :=
  score_antitone_distance 1000 500 (some "사토") (some "사토") true false
    none none none none (by norm_num) 40 180 (by norm_num)

/-- **C5.** For every input candidate set of any size, Stage B evaluates at
most 10 candidates: the Stage-A survivors are sorted by straight-line
distance ascending and truncated to the nearest 10 before any real
road-distance lookup, so both the Stage-B input and the Stage-B output
have at most 10 rows, and the Stage-B input is sorted by straight-line
distance ascending. -/
theorem stage_b_at_most_ten (hav rd : ℚ → ℚ → ℚ → ℚ → ℚ) (refLat refLon dv : ℚ)
    (e : Entities) (cands : List Row) :
    (stage_b_input hav refLat refLon dv cands).length ≤ 10 ∧
    (stage_b_rows hav rd refLat refLon dv e cands).length ≤ 10 ∧
    (stage_b_input hav refLat refLon dv cands).Pairwise
      (fun r s => hav refLat refLon r.lat r.lon ≤ hav refLat refLon s.lat s.lon) := by
  have hlen : (stage_b_input hav refLat refLon dv cands).length ≤ 10 := by
    unfold stage_b_input
    simp [List.length_take]
  refine ⟨hlen, ?_, ?_⟩
  · unfold stage_b_rows
    exact le_trans (List.length_filterMap_le _ _) hlen
  · unfold stage_b_input
    haveI : IsTotal Row (fun r s => hav refLat refLon r.lat r.lon ≤ hav refLat refLon s.lat s.lon) :=
      ⟨fun a b => le_total _ _⟩
    haveI : IsTrans Row (fun r s => hav refLat refLon r.lat r.lon ≤ hav refLat refLon s.lat s.lon) :=
      ⟨fun a b c hab hbc => le_trans hab hbc⟩
    exact (List.sorted_insertionSort _ _).sublist (List.take_sublist _ _)

/-- **C10.** The transport cost attached to every Stage-B result row is
`round(real_distance × requested_volume × 1.5 × 123)`, computed from the
demand's (possibly defaulted) requested volume; within one response any
two candidates at equal real distance carry identical transport cost, and
`calculate_transport_cost` returns `0` when the distance or the volume is
absent. -/
theorem transport_cost_spec :
    (∀ v, calculate_transport_cost none v = 0) ∧
    (∀ d, calculate_transport_cost d none = 0) ∧
    (∀ d v : ℚ, calculate_transport_cost (some d) (some v) = pyRound (d * v * 1.5 * 123)) ∧
    (∀ (real_dist dv : ℚ) (e : Entities) (row : Row),
      (stage_b_row real_dist dv e row).transport_cost =
        calculate_transport_cost (some real_dist) (some dv)) ∧
    (∀ (d1 d2 dv : ℚ) (e : Entities) (r1 r2 : Row), d1 = d2 →
      (stage_b_row d1 dv e r1).transport_cost = (stage_b_row d2 dv e r2).transport_cost) ∧
    (∀ (hav rd : ℚ → ℚ → ℚ → ℚ → ℚ) (refLat refLon dv : ℚ) (e : Entities)
       (cands : List Row) (r : OutRow), r ∈ stage_b_rows hav rd refLat refLon dv e cands →
      ∃ c, c ∈ stage_b_input hav refLat refLon dv cands ∧
        r.transport_cost = pyRound (rd refLat refLon c.lat c.lon * dv * 1.5 * 123)) := by
  refine ⟨fun v => by cases v <;> rfl, fun d => rfl, ?_, fun _ _ _ _ => rfl, ?_, ?_⟩
  · intro d v
    show pyRound (d * (v * 1.5) * 123) = pyRound (d * v * 1.5 * 123)
    exact congrArg pyRound (by ring)
  · intro d1 d2 dv e r1 r2 h
    subst h
    rfl
  · intro hav rd refLat refLon dv e cands r hr
    unfold stage_b_rows at hr
    rcases List.mem_filterMap.mp hr with ⟨c, hc, hfc⟩
    refine ⟨c, hc, ?_⟩
    by_cases h5 : (500 : ℚ) < rd refLat refLon c.lat c.lon
    · rw [if_pos h5] at hfc
      exact absurd hfc (by simp)
    · rw [if_neg h5] at hfc
      have hrc : r = stage_b_row (rd refLat refLon c.lat c.lon) dv e c :=
        (Option.some.injEq _ _ ▸ hfc).symm
      rw [hrc]
      show pyRound (rd refLat refLon c.lat c.lon * (dv * 1.5) * 123) = _
      exact congrArg pyRound (by ring)

/-- Witness for C10: a concrete Stage-B row's cost matches the formula
from the demand volume. -/
theorem transport_cost_spec_witness :
    ∃ c, c ∈ stage_b_input zeroDist 0 0 10 [sampleRow] ∧
      (stage_b_row 0 10 sampleEntities sampleRow).transport_cost =
        pyRound (zeroDist 0 0 c.lat c.lon * 10 * 1.5 * 123) :=
  transport_cost_spec.2.2.2.2.2 zeroDist zeroDist 0 0 10 sampleEntities [sampleRow]
    (stage_b_row 0 10 sampleEntities sampleRow)
    (by
      rw [show stage_b_rows zeroDist zeroDist 0 0 10 sampleEntities [sampleRow] =
          [stage_b_row 0 10 sampleEntities sampleRow] from rfl]
      exact List.mem_singleton_self _)

/-- **C1 (code bug).** Whenever the region label resolves to coordinates
but no candidate survives filtering (in particular for an empty candidate
sequence), `rank_candidates` does NOT return an empty ranked list: the
final `pd.DataFrame(filtered_rows)` is built from an empty list, has no
`score` column, and `sort_values("score")` raises `KeyError`. -/
theorem rank_no_survivor_raises (hav rd : ℚ → ℚ → ℚ → ℚ → ℚ)
    (geocode : String → Except String (ℚ × ℚ)) (e : Entities) (la lo : ℚ)
    (hgeo : geocode ((e.region).getD "") = Except.ok (la, lo))
    (cands : List Row) (hnone : stage_a hav la lo (resolveVolume e).1 cands = []) :
    rank_candidates hav rd geocode e cands = Except.error "KeyError: score" := by
  unfold rank_candidates
  rw [hgeo]
  show (match sortSelect (dedupRows (stage_b_rows hav rd la lo (resolveVolume e).1 e cands)) with
        | Except.error m => Except.error m
        | Except.ok out =>
            Except.ok (out, mkSummary e (resolveVolume e).1 (resolveVolume e).2, (resolveVolume e).2))
      = Except.error "KeyError: score"
  unfold stage_b_rows stage_b_input
  rw [hnone]
  rfl

/-- Witness for C1: an empty candidate list with a resolving region label
makes `rank_candidates` raise instead of returning an empty result. -/
theorem rank_no_survivor_raises_witness :
    rank_candidates zeroDist zeroDist okGeocode sampleEntities [] =
      Except.error "KeyError: score" :=
  rank_no_survivor_raises zeroDist zeroDist okGeocode sampleEntities 0 0 rfl [] rfl

/-- **C6.** Whenever `rank_candidates` returns successfully, the ranked
list is sorted by score in descending order and contains at most 3 rows. -/
theorem ranked_sorted_top3 (hav rd : ℚ → ℚ → ℚ → ℚ → ℚ)
    (geocode : String → Except String (ℚ × ℚ)) (e : Entities) (cands : List Row)
    (out : List OutRow) (s ad : List String)
    (hok : rank_candidates hav rd geocode e cands = Except.ok (out, s, ad)) :
    out.length ≤ 3 ∧ out.Pairwise (fun a b : OutRow => b.score ≤ a.score) := by
  obtain ⟨la, lo, hgeo, hemp, hval, ha⟩ :=
    rank_candidates_ok_inv hav rd geocode e cands out s ad hok
  subst hval
  constructor
  · simp [List.length_take]
  · haveI : IsTotal OutRow (fun a b : OutRow => b.score ≤ a.score) :=
      ⟨fun a b => le_total _ _⟩
    haveI : IsTrans OutRow (fun a b : OutRow => b.score ≤ a.score) :=
      ⟨fun a b c hab hbc => le_trans hbc hab⟩
    exact (List.sorted_insertionSort _ _).sublist (List.take_sublist _ _)

/-- Witness for C6 at a concrete successful ranking call. -/
theorem ranked_sorted_top3_witness :
    [stage_b_row 0 10 sampleEntities sampleRow].length ≤ 3 ∧
    [stage_b_row 0 10 sampleEntities sampleRow].Pairwise
      (fun a b : OutRow => b.score ≤ a.score) :=
  ranked_sorted_top3 zeroDist zeroDist okGeocode sampleEntities [sampleRow]
    [stage_b_row 0 10 sampleEntities sampleRow]
    (mkSummary sampleEntities 10 []) [] rfl

/-- **C8.** A missing demand volume is defaulted from the request's
purpose via the fixed table (농업→30, 조경→20, 복구→100, 건설→200, aliases
onto these, anything unmapped or unspecified → 200), a human-readable
note recording the substituted volume is produced, and that note list is
exactly what a successful `rank_candidates` call returns as
`applied_defaults`. -/
theorem default_volume_policy :
    (∀ (e : Entities) (p : String), e.volume_m3 = none → e.purpose = some p → p ≠ "" →
      (resolveVolume e).1 = (get_default_volume_by_purpose p : ℚ) ∧
      (resolveVolume e).2 =
        ["용량: " ++ toString (get_default_volume_by_purpose p) ++ "m³ (" ++ p ++ "용 기본값 적용)"]) ∧
    get_default_volume_by_purpose "농업" = 30 ∧
    get_default_volume_by_purpose "조경" = 20 ∧
    get_default_volume_by_purpose "복구" = 100 ∧
    get_default_volume_by_purpose "건설" = 200 ∧
    (∀ p : String,
      p ∉ ["농업", "조경", "복구", "건설", "매립", "되메우기", "기초공사", "도로공사", "하천정비", "산사태복구"] →
      get_default_volume_by_purpose p = 200) ∧
    (∀ e : Entities, e.volume_m3 = none → (e.purpose = none ∨ e.purpose = some "") →
      (resolveVolume e).1 = 200 ∧ (resolveVolume e).2 = ["용량: 200m³ (기본값 적용)"]) ∧
    (∀ (hav rd : ℚ → ℚ → ℚ → ℚ → ℚ) (geocode : String → Except String (ℚ × ℚ))
       (e : Entities) (cands : List Row) (out : List OutRow) (s ad : List String),
      rank_candidates hav rd geocode e cands = Except.ok (out, s, ad) →
      ad = (resolveVolume e).2) := by
  refine ⟨?_, rfl, rfl, rfl, rfl, ?_, ?_, ?_⟩
  · intro e p hv hp hne
    unfold resolveVolume
    rw [hv, hp]
    simp [hne]
  · intro p hp
    simp only [List.mem_cons, List.not_mem_nil, or_false, not_or] at hp
    obtain ⟨h1, h2, h3, h4, h5, h6, h7, h8, h9, h10⟩ := hp
    have e1 := beq_eq_false_iff_ne.mpr h1
    have e2 := beq_eq_false_iff_ne.mpr h2
    have e3 := beq_eq_false_iff_ne.mpr h3
    have e4 := beq_eq_false_iff_ne.mpr h4
    have e5 := beq_eq_false_iff_ne.mpr h5
    have e6 := beq_eq_false_iff_ne.mpr h6
    have e7 := beq_eq_false_iff_ne.mpr h7
    have e8 := beq_eq_false_iff_ne.mpr h8
    have e9 := beq_eq_false_iff_ne.mpr h9
    have e10 := beq_eq_false_iff_ne.mpr h10
    simp [get_default_volume_by_purpose, List.lookup, e1, e2, e3, e4, e5, e6, e7, e8, e9, e10]
  · intro e hv hp
    unfold resolveVolume
    rw [hv]
    rcases hp with hp | hp <;> rw [hp] <;> simp
  · intro hav rd geocode e cands out s ad hok
    obtain ⟨la, lo, hgeo, hemp, hval, ha⟩ :=
      rank_candidates_ok_inv hav rd geocode e cands out s ad hok
    exact ha

/-- `replaceIfBetter` never changes the name sequence of the kept rows. -/
theorem replaceIfBetter_map_name (r : OutRow) :
    ∀ l : List OutRow, (replaceIfBetter r l).map OutRow.name = l.map OutRow.name
  | [] => rfl
  | a :: rest => by
    unfold replaceIfBetter
    by_cases h : (a.name == r.name) = true
    · rw [if_pos h]
      have hn : a.name = r.name := beq_iff_eq.mp h
      by_cases hs : a.score < r.score
      · rw [if_pos hs]; simp [hn]
      · rw [if_neg hs]
    · rw [if_neg h]
      simp [replaceIfBetter_map_name r rest]

/-- Every kept row is still represented, with the same name and an equal
or better score, after `replaceIfBetter`. -/
theorem replaceIfBetter_exists_ge (r : OutRow) :
    ∀ (l : List OutRow) (a : OutRow), a ∈ l →
      ∃ a', a' ∈ replaceIfBetter r l ∧ a'.name = a.name ∧ a.score ≤ a'.score
  | [], a, ha => absurd ha (List.not_mem_nil a)
  | b :: rest, a, ha => by
    unfold replaceIfBetter
    by_cases h : (b.name == r.name) = true
    · rw [if_pos h]
      have hbn : b.name = r.name := beq_iff_eq.mp h
      by_cases hs : b.score < r.score
      · rw [if_pos hs]
        rcases List.mem_cons.mp ha with rfl | hmem
        · exact ⟨r, List.mem_cons_self _ _, by rw [hbn], le_of_lt hs⟩
        · exact ⟨a, List.mem_cons_of_mem _ hmem, rfl, le_refl _⟩
      · rw [if_neg hs]
        exact ⟨a, ha, rfl, le_refl _⟩
    · rw [if_neg h]
      rcases List.mem_cons.mp ha with rfl | hmem
      · exact ⟨a, List.mem_cons_self _ _, rfl, le_refl _⟩
      · rcases replaceIfBetter_exists_ge r rest a hmem with ⟨a', h1, h2, h3⟩
        exact ⟨a', List.mem_cons_of_mem _ h1, h2, h3⟩

/-- If some kept row shares the incoming row's name, then after
`replaceIfBetter` some kept row has that name and a score at least the
incoming row's. -/
theorem replaceIfBetter_exists_ge_self (r : OutRow) :
    ∀ l : List OutRow, (∃ b ∈ l, b.name = r.name) →
      ∃ a', a' ∈ replaceIfBetter r l ∧ a'.name = r.name ∧ r.score ≤ a'.score
  | [], h => by
    rcases h with ⟨b, hb, _⟩
    exact absurd hb (List.not_mem_nil b)
  | b :: rest, h => by
    unfold replaceIfBetter
    by_cases hb : (b.name == r.name) = true
    · rw [if_pos hb]
      have hbn : b.name = r.name := beq_iff_eq.mp hb
      by_cases hs : b.score < r.score
      · rw [if_pos hs]
        exact ⟨r, List.mem_cons_self _ _, rfl, le_refl _⟩
      · rw [if_neg hs]
        exact ⟨b, List.mem_cons_self _ _, hbn, not_lt.mp hs⟩
    · rw [if_neg hb]
      rcases h with ⟨c, hc, hcn⟩
      rcases List.mem_cons.mp hc with rfl | hmem
      · exact absurd (beq_iff_eq.mpr hcn) (by simpa using hb)
      · rcases replaceIfBetter_exists_ge_self r rest ⟨c, hmem, hcn⟩ with ⟨a', h1, h2, h3⟩
        exact ⟨a', List.mem_cons_of_mem _ h1, h2, h3⟩

/-- `acc ++ [r]` keeps distinct names when `r`'s name is unseen. -/
theorem names_nodup_append (acc : List OutRow) (r : OutRow)
    (hnd : (acc.map OutRow.name).Nodup)
    (hseen : ¬ (acc.any fun b => b.name == r.name) = true) :
    ((acc ++ [r]).map OutRow.name).Nodup := by
  have hnot : r.name ∉ acc.map OutRow.name := by
    intro hmem
    rcases List.mem_map.mp hmem with ⟨b, hb, hbn⟩
    exact hseen (List.any_eq_true.mpr ⟨b, hb, beq_iff_eq.mpr hbn⟩)
  rw [List.map_append]
  simp only [List.map_cons, List.map_nil]
  exact List.Nodup.append hnd (List.nodup_singleton _)
    (by simpa [List.disjoint_singleton] using hnot)

/-- Every row kept by the dedup loop scores at least as well as any
same-named row already in the accumulator. -/
theorem dedupAux_dominates :
    ∀ (rows acc : List OutRow), (acc.map OutRow.name).Nodup →
      ∀ x ∈ dedupAux acc rows, ∀ a ∈ acc, a.name = x.name → a.score ≤ x.score
  | [], acc, hnd, x, hx, a, ha, hname => by
    unfold dedupAux at hx
    have : a = x := List.inj_on_of_nodup_map hnd ha hx hname
    rw [this]
  | r :: rest, acc, hnd, x, hx, a, ha, hname => by
    unfold dedupAux at hx
    by_cases hseen : (acc.any fun b => b.name == r.name) = true
    · rw [if_pos hseen] at hx
      have hnd' : ((replaceIfBetter r acc).map OutRow.name).Nodup := by
        rw [replaceIfBetter_map_name]; exact hnd
      rcases replaceIfBetter_exists_ge r acc a ha with ⟨a', h1, h2, h3⟩
      exact le_trans h3
        (dedupAux_dominates rest (replaceIfBetter r acc) hnd' x hx a' h1 (h2.trans hname))
    · rw [if_neg hseen] at hx
      exact dedupAux_dominates rest (acc ++ [r]) (names_nodup_append acc r hnd hseen)
        x hx a (List.mem_append_left _ ha) hname

/-- Every row kept by the dedup loop scores at least as well as any
same-named row of the remaining input. -/
theorem dedupAux_max :
    ∀ (rows acc : List OutRow), (acc.map OutRow.name).Nodup →
      ∀ x ∈ dedupAux acc rows, ∀ s ∈ rows, s.name = x.name → s.score ≤ x.score
  | [], _, _, _, _, s, hs, _ => absurd hs (List.not_mem_nil s)
  | r :: rest, acc, hnd, x, hx, s, hs, hname => by
    unfold dedupAux at hx
    by_cases hseen : (acc.any fun b => b.name == r.name) = true
    · rw [if_pos hseen] at hx
      have hnd' : ((replaceIfBetter r acc).map OutRow.name).Nodup := by
        rw [replaceIfBetter_map_name]; exact hnd
      rcases List.mem_cons.mp hs with rfl | hsrest
      · rcases List.any_eq_true.mp hseen with ⟨b, hb, hbeq⟩
        rcases replaceIfBetter_exists_ge_self s acc ⟨b, hb, beq_iff_eq.mp hbeq⟩ with ⟨a', h1, h2, h3⟩
        exact le_trans h3
          (dedupAux_dominates rest _ hnd' x hx a' h1 (h2.trans hname))
      · exact dedupAux_max rest _ hnd' x hx s hsrest hname
    · rw [if_neg hseen] at hx
      have hnd' := names_nodup_append acc r hnd hseen
      rcases List.mem_cons.mp hs with rfl | hsrest
      · exact dedupAux_dominates rest _ hnd' x hx s
          (List.mem_append_right _ (List.mem_singleton_self _)) hname
      · exact dedupAux_max rest _ hnd' x hx s hsrest hname

/-- The dedup loop keeps at most one row per supplier name. -/
theorem dedupAux_names_nodup :
    ∀ (rows acc : List OutRow), (acc.map OutRow.name).Nodup →
      ((dedupAux acc rows).map OutRow.name).Nodup
  | [], _, hnd => hnd
  | r :: rest, acc, hnd => by
    unfold dedupAux
    by_cases hseen : (acc.any fun b => b.name == r.name) = true
    · rw [if_pos hseen]
      exact dedupAux_names_nodup rest _ (by rw [replaceIfBetter_map_name]; exact hnd)
    · rw [if_neg hseen]
      exact dedupAux_names_nodup rest _ (names_nodup_append acc r hnd hseen)

/-- **C7.** Of two Stage-B surviving rows that share a candidate name and
have different scores, only the higher-scoring one can appear in the
final ranked list, and every name occurs at most once in the returned
list. -/
theorem dedup_keeps_best (hav rd : ℚ → ℚ → ℚ → ℚ → ℚ)
    (geocode : String → Except String (ℚ × ℚ)) (e : Entities) (cands : List Row)
    (out : List OutRow) (s ad : List String) (la lo : ℚ)
    (hgeo : geocode ((e.region).getD "") = Except.ok (la, lo))
    (hok : rank_candidates hav rd geocode e cands = Except.ok (out, s, ad))
    (r1 r2 : OutRow)
    (h1 : r1 ∈ stage_b_rows hav rd la lo (resolveVolume e).1 e cands)
    (h2 : r2 ∈ stage_b_rows hav rd la lo (resolveVolume e).1 e cands)
    (hn : r1.name = r2.name) (hs : r1.score < r2.score) :
    r1 ∉ out ∧ (out.map OutRow.name).Nodup := by
  obtain ⟨la', lo', hgeo', hemp, hval, ha⟩ :=
    rank_candidates_ok_inv hav rd geocode e cands out s ad hok
  rw [hgeo] at hgeo'
  have hinj := Except.ok.inj hgeo'
  have heq1 : la' = la := (congrArg Prod.fst hinj).symm
  have heq2 : lo' = lo := (congrArg Prod.snd hinj).symm
  subst heq1
  subst heq2
  have hperm := List.perm_insertionSort (fun a b : OutRow => b.score ≤ a.score)
    (dedupRows (stage_b_rows hav rd la' lo' (resolveVolume e).1 e cands))
  have hsub : out ⊆ dedupRows (stage_b_rows hav rd la' lo' (resolveVolume e).1 e cands) := by
    rw [hval]
    exact fun y hy => hperm.subset (List.take_subset _ _ hy)
  constructor
  · intro hin
    have hmax := dedupAux_max (stage_b_rows hav rd la' lo' (resolveVolume e).1 e cands) []
      (by simp) r1 (hsub hin) r2 h2 hn.symm
    exact absurd hmax (not_le.mpr hs)
  · have hnd : ((dedupRows (stage_b_rows hav rd la' lo' (resolveVolume e).1 e cands)).map
        OutRow.name).Nodup :=
      dedupAux_names_nodup (stage_b_rows hav rd la' lo' (resolveVolume e).1 e cands) [] (by simp)
    have hnd' := ((hperm.map OutRow.name).nodup_iff).mpr hnd
    rw [hval]
    exact hnd'.sublist ((List.take_sublist _ _).map _)

/-- Witness for C7 at a concrete ranking call with two same-named rows of
scores 75 and 100: the 75-score row is not in the output. -/
theorem dedup_keeps_best_witness :
    stage_b_row 100 10 sampleEntities dupRowB ∉
        [stage_b_row 0 10 sampleEntities sampleRow] ∧
    ([stage_b_row 0 10 sampleEntities sampleRow].map OutRow.name).Nodup :=
  dedup_keeps_best zeroDist dupRd okGeocode sampleEntities [sampleRow, dupRowB]
    [stage_b_row 0 10 sampleEntities sampleRow] (mkSummary sampleEntities 10 []) [] 0 0
    rfl (by with_unfolding_all rfl)
    (stage_b_row 100 10 sampleEntities dupRowB)
    (stage_b_row 0 10 sampleEntities sampleRow)
    (by
      rw [show stage_b_rows zeroDist dupRd 0 0 (resolveVolume sampleEntities).1
            sampleEntities [sampleRow, dupRowB] =
          [stage_b_row 0 10 sampleEntities sampleRow,
           stage_b_row 100 10 sampleEntities dupRowB] from by with_unfolding_all rfl]
      exact List.mem_cons_of_mem _ (List.mem_singleton_self _))
    (by
      rw [show stage_b_rows zeroDist dupRd 0 0 (resolveVolume sampleEntities).1
            sampleEntities [sampleRow, dupRowB] =
          [stage_b_row 0 10 sampleEntities sampleRow,
           stage_b_row 100 10 sampleEntities dupRowB] from by with_unfolding_all rfl]
      exact List.mem_cons_self _ _)
    rfl
    (by with_unfolding_all decide)

/-- Witness for C8: volume absent with purpose agriculture substitutes 30
and records the note. -/
theorem default_volume_policy_witness :
    (resolveVolume agriEntities).1 = (get_default_volume_by_purpose "농업" : ℚ) ∧
    (resolveVolume agriEntities).2 =
      ["용량: " ++ toString (get_default_volume_by_purpose "농업") ++ "m³ (" ++ "농업" ++ "용 기본값 적용)"] :=
  default_volume_policy.1 agriEntities "농업" rfl rfl (by decide)

/-- A filter that provably drops some element shortens the list. -/
theorem length_filter_lt_of_exists (p : α → Bool) :
    ∀ l : List α, (∃ x ∈ l, p x = false) → (l.filter p).length < l.length
  | [], h => by
    rcases h with ⟨x, hx, _⟩
    exact absurd hx (List.not_mem_nil x)
  | a :: rest, h => by
    rcases h with ⟨x, hx, hpx⟩
    by_cases hpa : p a = true
    · rw [List.filter_cons_of_pos hpa]
      rcases List.mem_cons.mp hx with rfl | hxr
      · rw [hpx] at hpa
        exact absurd hpa (by simp)
      · exact Nat.succ_lt_succ (length_filter_lt_of_exists p rest ⟨x, hxr, hpx⟩)
    · rw [List.filter_cons_of_neg (by simpa using hpa)]
      exact Nat.lt_succ_of_le (List.length_filter_le p rest)

/-- Dict assignment grows the store by at most one entry. -/
theorem dictSet_length (k : String) (v : CacheEntry α) :
    ∀ c : CacheStore α, (dictSet k v c).length ≤ c.length + 1
  | [] => by simp [dictSet]
  | (k', v') :: rest => by
    unfold dictSet
    by_cases h : k' = k
    · rw [if_pos h]
      simp
    · rw [if_neg h]
      simpa using Nat.succ_le_succ (dictSet_length k v rest)

/-- The capacity sweep strictly shrinks a store that is at or above the
maximum (the removal set is nonempty). -/
theorem cleanup_oldest_lt (cfg : CacheConfig) (h1 : 1 ≤ cfg.maxSize) (c : CacheStore α)
    (hc : cfg.maxSize ≤ c.length) : (cleanup_oldest cfg c).length < c.length := by
  unfold cleanup_oldest
  rw [if_pos hc]
  apply length_filter_lt_of_exists
  have hperm := List.perm_insertionSort
    (fun a b : String × CacheEntry α => a.2.timestamp ≤ b.2.timestamp) c
  have hslen : 1 ≤ (List.insertionSort
      (fun a b : String × CacheEntry α => a.2.timestamp ≤ b.2.timestamp) c).length := by
    rw [hperm.length_eq]
    omega
  obtain ⟨y, ys, hys⟩ : ∃ y ys, List.insertionSort
      (fun a b : String × CacheEntry α => a.2.timestamp ≤ b.2.timestamp) c = y :: ys := by
    cases hcase : List.insertionSort
      (fun a b : String × CacheEntry α => a.2.timestamp ≤ b.2.timestamp) c with
    | nil => rw [hcase] at hslen; simp at hslen
    | cons y ys => exact ⟨y, ys, rfl⟩
  refine ⟨y, hperm.subset (hys ▸ List.mem_cons_self _ _), ?_⟩
  have hmem : y.1 ∈ ((List.insertionSort
      (fun a b : String × CacheEntry α => a.2.timestamp ≤ b.2.timestamp) c).take
        (max 1 (c.length / 5))).map Prod.fst := by
    apply List.mem_map_of_mem
    rw [hys]
    have : 1 ≤ max 1 (c.length / 5) := le_max_left _ _
    cases hmax : max 1 (c.length / 5) with
    | zero => omega
    | succ n => simp
  rw [List.map_take] at hmem
  simp [hmem]

/-- A get never grows the store. -/
theorem cache_get_length (cfg : CacheConfig) (now : ℚ) (k : String) (c : CacheStore α) :
    (cache_get cfg now k c).2.length ≤ c.length := by
  unfold cache_get
  split
  · split
    · split
      · simpa using List.length_filter_le _ _
      · simp
    · simp
  · simp

/-- A set keeps the store within the maximum when it started within it. -/
theorem cache_set_length (cfg : CacheConfig) (h1 : 1 ≤ cfg.maxSize) (now : ℚ)
    (k : String) (v : α) (c : CacheStore α) (hc : c.length ≤ cfg.maxSize) :
    (cache_set cfg now k v c).length ≤ cfg.maxSize := by
  unfold cache_set
  by_cases hu : cfg.useCache
  · rw [if_pos hu]
    have hce : (cleanup_expired cfg now c).length ≤ c.length :=
      (List.filter_sublist _).length_le
    by_cases ho : cfg.maxSize ≤ (cleanup_expired cfg now c).length
    · have hlt := cleanup_oldest_lt cfg h1 _ ho
      have hds := dictSet_length k ⟨v, now⟩ (cleanup_oldest cfg (cleanup_expired cfg now c))
      omega
    · have heq : cleanup_oldest cfg (cleanup_expired cfg now c) =
          cleanup_expired cfg now c := by
        unfold cleanup_oldest
        rw [if_neg ho]
      rw [heq]
      have hds := dictSet_length k ⟨v, now⟩ (cleanup_expired cfg now c)
      omega
  · rw [if_neg hu]
    exact hc

/-- The size bound is preserved along any operation sequence. -/
theorem foldl_cache_inv (cfg : CacheConfig) (h1 : 1 ≤ cfg.maxSize) :
    ∀ (ops : List (CacheOp α)) (c : CacheStore α), c.length ≤ cfg.maxSize →
      (ops.foldl (applyOp cfg) c).length ≤ cfg.maxSize
  | [], _, hc => hc
  | op :: rest, c, hc => by
    rw [List.foldl_cons]
    apply foldl_cache_inv cfg h1 rest
    cases op with
    | get now k => exact le_trans (cache_get_length cfg now k c) hc
    | set now k v => exact cache_set_length cfg h1 now k v c hc
    | clear => exact Nat.zero_le _

/-- **C9.** Assuming the configured maximum size is at least 1, the number
of cache entries never exceeds it after any sequence of get/set/clear
operations starting from the empty cache, and the bound is an invariant
preserved by every single operation. -/
theorem cache_size_invariant (α : Type) (cfg : CacheConfig) (h1 : 1 ≤ cfg.maxSize) :
    (∀ ops : List (CacheOp α), (runOps cfg ops).length ≤ cfg.maxSize) ∧
    (∀ (c : CacheStore α) (op : CacheOp α), c.length ≤ cfg.maxSize →
      (applyOp cfg c op).length ≤ cfg.maxSize) := by
  constructor
  · intro ops
    exact foldl_cache_inv cfg h1 ops [] (Nat.zero_le _)
  · intro c op hc
    cases op with
    | get now k => exact le_trans (cache_get_length cfg now k c) hc
    | set now k v => exact cache_set_length cfg h1 now k v c hc
    | clear => exact Nat.zero_le _

/-- Witness for C9 at the shipped configuration and a concrete operation
sequence. -/
theorem cache_size_invariant_witness :
    (runOps defaultCacheConfig
      [CacheOp.set 0 "a" (1 : ℕ), CacheOp.set 5 "b" 2, CacheOp.get 6 "a",
       CacheOp.clear, CacheOp.set 7 "c" 3]).length ≤ defaultCacheConfig.maxSize :=
  (cache_size_invariant ℕ defaultCacheConfig (by norm_num [defaultCacheConfig])).1
    [CacheOp.set 0 "a" 1, CacheOp.set 5 "b" 2, CacheOp.get 6 "a",
     CacheOp.clear, CacheOp.set 7 "c" 3]

/-- Two dicts that are equal as maps (same key-value pairs, distinct keys,
any order) sort to the same key-ordered pair list. -/
theorem insertionSort_key_eq (e1 e2 : PyDict) (hp : e1.Perm e2)
    (hnd : (e1.map Prod.fst).Nodup) :
    List.insertionSort (fun a b : String × PVal => a.1 ≤ b.1) e1 =
      List.insertionSort (fun a b : String × PVal => a.1 ≤ b.1) e2 := by
  haveI : IsTotal (String × PVal) (fun a b => a.1 ≤ b.1) := ⟨fun a b => le_total _ _⟩
  haveI : IsTrans (String × PVal) (fun a b => a.1 ≤ b.1) :=
    ⟨fun a b c h1 h2 => le_trans h1 h2⟩
  haveI : IsAntisymm (String × PVal) (fun a b => a.1 < b.1) :=
    ⟨fun a b h1 h2 => absurd (lt_trans h1 h2) (lt_irrefl _)⟩
  have hs1 := List.sorted_insertionSort (fun a b : String × PVal => a.1 ≤ b.1) e1
  have hs2 := List.sorted_insertionSort (fun a b : String × PVal => a.1 ≤ b.1) e2
  have hperm : (List.insertionSort (fun a b : String × PVal => a.1 ≤ b.1) e1).Perm
      (List.insertionSort (fun a b : String × PVal => a.1 ≤ b.1) e2) :=
    (List.perm_insertionSort _ e1).trans (hp.trans (List.perm_insertionSort _ e2).symm)
  have hnd1 : ((List.insertionSort (fun a b : String × PVal => a.1 ≤ b.1) e1).map
      Prod.fst).Nodup :=
    (((List.perm_insertionSort _ e1).map Prod.fst).nodup_iff).mpr hnd
  have hnd2 : ((List.insertionSort (fun a b : String × PVal => a.1 ≤ b.1) e2).map
      Prod.fst).Nodup :=
    ((hperm.map Prod.fst).nodup_iff).mp hnd1
  have hlt1 : List.Sorted (fun a b : String × PVal => a.1 < b.1)
      (List.insertionSort (fun a b : String × PVal => a.1 ≤ b.1) e1) :=
    (hs1.and (List.pairwise_map.mp hnd1)).imp fun h => lt_of_le_of_ne h.1 h.2
  have hlt2 : List.Sorted (fun a b : String × PVal => a.1 < b.1)
      (List.insertionSort (fun a b : String × PVal => a.1 ≤ b.1) e2) :=
    (hs2.and (List.pairwise_map.mp hnd2)).imp fun h => lt_of_le_of_ne h.1 h.2
  exact List.eq_of_perm_of_sorted hperm hlt1 hlt2

/-- **C2 (amended).** The matching-result cache key depends on the
candidate set only through the string rendering handed to Python's
`hash`: candidate sets with equal renderings always derive equal keys (so
contents hidden by dataframe truncation cannot distinguish keys); and key
derivation is order-independent in the entities dict — structurally equal
dicts in any key order derive the same key. -/
theorem cache_key_amended :
    (∀ (md5 : String → String) (pyHash : String → ℤ) (e : PyDict) (c1 c2 : List Row),
      dfStr c1 = dfStr c2 →
      match_cache_key md5 pyHash e c1 = match_cache_key md5 pyHash e c2) ∧
    (∀ (md5 : String → String) (pyHash : String → ℤ) (e1 e2 : PyDict) (c : List Row),
      e1.Perm e2 → (e1.map Prod.fst).Nodup →
      match_cache_key md5 pyHash e1 c = match_cache_key md5 pyHash e2 c) := by
  constructor
  · intro md5 pyHash e c1 c2 hdf
    exact congrArg (fun s => "match:" ++ md5 (matchKeyPayload (pyHash s) e)) hdf
  · intro md5 pyHash e1 e2 c hp hnd
    have hdd : dumpsDict e1 = dumpsDict e2 := by
      unfold dumpsDict
      rw [insertionSort_key_eq e1 e2 hp hnd]
    show "match:" ++ md5 (matchKeyPayload (pyHash (dfStr c)) e1) =
      "match:" ++ md5 (matchKeyPayload (pyHash (dfStr c)) e2)
    unfold matchKeyPayload
    rw [hdd]

set_option maxRecDepth 10000 in
/-- Witness for C2 (amended) at concrete inputs: the truncation-equal
61-row candidate sets derive the same key, and the two-key entities dict
derives the same key in either order. -/
theorem cache_key_amended_witness :
    match_cache_key idMd5 zeroHash exEntities exC1 =
      match_cache_key idMd5 zeroHash exEntities exC2 ∧
    match_cache_key idMd5 zeroHash exE1 [] = match_cache_key idMd5 zeroHash exE2 [] :=
  ⟨cache_key_amended.1 idMd5 zeroHash exEntities exC1 exC2 (by decide),
   cache_key_amended.2 idMd5 zeroHash exE1 exE2 [] (by decide) (by decide)⟩

set_option maxRecDepth 10000 in
/-- **C2 (counterexample).** Two candidate sets with different contents
(61 rows, differing only at row 30, which the dataframe rendering elides)
derive the SAME matching-result cache key for every digest oracle, and a
result cached for the first set IS returned by
`get_cached_matching_result` for the second set. -/
theorem cache_key_not_injective :
    exC1 ≠ exC2 ∧ match_keys_always_agree exEntities exC1 exC2 ∧
    cached_result_leaks exEntities exC1 exC2 := by
  refine ⟨by decide, ?_, ?_⟩
  · intro md5 pyHash
    exact congrArg (fun s => "match:" ++ md5 (matchKeyPayload (pyHash s) exEntities))
      (by decide : dfStr exC1 = dfStr exC2)
  · intro md5 pyHash
    have hk : match_cache_key md5 pyHash exEntities exC2 =
        match_cache_key md5 pyHash exEntities exC1 :=
      (congrArg (fun s => "match:" ++ md5 (matchKeyPayload (pyHash s) exEntities))
        (by decide : dfStr exC1 = dfStr exC2)).symm
    show (cache_get defaultCacheConfig 0 (match_cache_key md5 pyHash exEntities exC2)
        (cache_set defaultCacheConfig 0
          (match_cache_key md5 pyHash exEntities exC1) (42 : ℕ) [])).1 = some 42
    rw [hk]
    generalize match_cache_key md5 pyHash exEntities exC1 = k
    have hset : cache_set defaultCacheConfig 0 k (42 : ℕ) [] = [(k, ⟨42, 0⟩)] := by
      unfold cache_set cleanup_oldest cleanup_expired
      simp [defaultCacheConfig, dictSet]
    rw [hset]
    have hexp : is_expired { maxSize := 100, duration := 3600, useCache := true } 0 0 = false := by
      unfold is_expired
      norm_num
    unfold cache_get
    simp [defaultCacheConfig, List.lookup, hexp]

end Tobaro
